import Mathlib

/-!
Shallow embedding of the PokerBuddy Telegram worker
(src/tg-bot-worker/src/index.ts) together with its SQLite schema
(migrations 0001/0002).  The D1 store is modelled as lists of rows with
explicit AUTOINCREMENT counters; the Telegram transport is modelled as an
oracle recording whether an edit succeeds and what `sendMessage` returns.
IEEE-754 doubles are modelled as exact rationals; every concrete input used
below is exactly representable, so the rational model agrees with the code
there.  JavaScript string truthiness is modelled by comparison with the
empty string, and `String(x)`/`Number(x)` round-trips on integral ids are
modelled as the identity.
-/

namespace PokerBuddy

/-- decision column of the approvals table: approve | reject. -/
inductive Decision
  | approve
  | reject
deriving DecidableEq, Repr

/-- games.status: active | ended. -/
inductive GStatus
  | active
  | ended
deriving DecidableEq, Repr

/-- buyins.status: pending | approved | rejected. -/
inductive BStatus
  | pending
  | approved
  | rejected
deriving DecidableEq, Repr

/-- TgUser from index.ts: id plus optional username / first_name. -/
structure TgUser where
  id : Int
  username : Option String
  firstName : Option String
deriving DecidableEq, Repr

/-- row of the games table (GameRow in index.ts). -/
structure Game where
  id : Nat
  chatId : Int
  status : GStatus
  startedAt : Nat
  endedAt : Option Nat
  buyInCents : Int
  statusMessageId : Option Nat
deriving DecidableEq, Repr

/-- row of the players table. -/
structure Player where
  gameId : Nat
  userId : String
  username : Option String
  firstName : Option String
  joinedAt : Nat
deriving DecidableEq, Repr

/-- row of the buyins table. -/
structure Buyin where
  id : Nat
  gameId : Nat
  userId : String
  amountCents : Int
  createdAt : Nat
  status : BStatus
deriving DecidableEq, Repr

/-- row of the approvals table (UNIQUE (buyin_id, approver_user_id)). -/
structure Approval where
  buyinId : Nat
  approverUserId : String
  decision : Decision
  createdAt : Nat
deriving DecidableEq, Repr

/-- the whole D1 database, with AUTOINCREMENT counters for the two tables
whose generated ids the code reads back. -/
structure Store where
  games : List Game
  players : List Player
  buyins : List Buyin
  approvals : List Approval
  nextGameId : Nat
  nextBuyinId : Nat
deriving DecidableEq, Repr

/-- ActionResult from index.ts. -/
structure ActionResult where
  ok : Bool
  message : Option String
deriving DecidableEq, Repr

/-- outcome of the Telegram calls a single operation may make:
whether `editMessageText` succeeds, and the `message_id` returned by
`sendMessage` (none covers both a thrown error and a missing id). -/
structure Telegram where
  editOk : Bool
  sendResult : Option Nat
deriving DecidableEq, Repr

/-- APPROVALS_REQUIRED = 1 in index.ts. -/
def APPROVALS_REQUIRED : Nat := 1

/-- MAX_PENDING_ROWS_IN_KEYBOARD = 5 in index.ts. -/
def MAX_PENDING_ROWS_IN_KEYBOARD : Nat := 5

/-- the code stores `String(user.id)` in TEXT columns. -/
def uid (u : TgUser) : String := toString u.id

/-- JavaScript `x || null` on an optional string: empty string is falsy. -/
def orNull (o : Option String) : Option String :=
  match o with
  | some "" => none
  | o => o

/-- toCents from index.ts: `Math.round(n * 100)`.  JS `Math.round` rounds
half toward positive infinity, i.e. `⌊x + 1/2⌋` in exact arithmetic. -/
def toCents (n : ℚ) : ℤ := ⌊n * 100 + 1 / 2⌋

/-- fmtMoney from index.ts: `(cents / 100).toFixed(2)`. -/
def fmtMoney (cents : Int) : String :=
  let sign := if cents < 0 then "-" else ""
  let n := cents.natAbs
  let fr := n % 100
  sign ++ toString (n / 100) ++ "." ++ (if fr < 10 then "0" else "") ++ toString fr

/-- maskUser from index.ts: ids of length ≤ 4 are returned unmasked,
longer ids keep the first two and last two characters around "***". -/
def maskUser (s : String) : String :=
  if s.length ≤ 4 then s
  else String.mk (s.toList.take 2) ++ "***" ++ String.mk (s.toList.drop (s.length - 2))

/-- displayName from index.ts; the DB hands it COALESCEd strings, so the
JS truthiness tests become comparisons with "". -/
def displayName (username firstName : String) (fallback : String) : String :=
  if username ≠ "" then "@" ++ username
  else if firstName ≠ "" then firstName
  else maskUser fallback

/-- maximal leading run of decimal digits of a character list, with the
rest of the list. -/
def digitRun : List Char → List Char × List Char
  | [] => ([], [])
  | c :: cs =>
    if c.isDigit then
      let r := digitRun cs
      (c :: r.1, r.2)
    else ([], c :: cs)

/-- numeric value of a digit string. -/
def digitsToNat (l : List Char) : Nat :=
  l.foldl (fun acc c => acc * 10 + (c.toNat - 48)) 0

/-- the first match of the regex `(\d+(?:\.\d+)?)` in a string, read by
`parseFloat`; the matched text is a plain decimal numeral, so its value is
the exact rational it denotes. -/
def scanAmount : List Char → Option ℚ
  | [] => none
  | c :: cs =>
    if c.isDigit then
      let intRun := digitRun (c :: cs)
      match intRun.2 with
      | '.' :: r2 =>
        let fracRun := digitRun r2
        match fracRun.1 with
        | [] => some (digitsToNat intRun.1 : ℚ)
        | frac => some ((digitsToNat intRun.1 : ℚ) + (digitsToNat frac : ℚ) / (10 ^ frac.length : ℚ))
      | _ => some (digitsToNat intRun.1 : ℚ)
    else scanAmount cs

/-- Array.prototype.join("\n") over the collected lines. -/
def joinLines : List String → String
  | [] => ""
  | [a] => a
  | a :: b :: rest => a ++ "\n" ++ joinLines (b :: rest)

/-- row with the greatest id, modelling `ORDER BY id DESC LIMIT 1`. -/
def maxById : List Game → Option Game
  | [] => none
  | g :: gs =>
    match maxById gs with
    | none => some g
    | some h => if h.id > g.id then some h else some g

/-- currentGame from index.ts: the active game of the chat with the
greatest id. -/
def currentGame (s : Store) (chatId : Int) : Option Game :=
  maxById (s.games.filter (fun g => decide (g.chatId = chatId ∧ g.status = GStatus.active)))

/-- getGameById from index.ts. -/
def getGameById (s : Store) (id : Nat) : Option Game :=
  s.games.find? (fun g => decide (g.id = id))

/-- the transition step of processApproval:
`UPDATE buyins SET status=? WHERE id=?` — the WHERE clause mentions only
the id, there is no `AND status='pending'` guard. -/
def setBuyinStatus (s : Store) (buyinId : Nat) (st : BStatus) : Store :=
  { s with buyins := s.buyins.map (fun b => if b.id = buyinId then { b with status := st } else b) }

/-- the vote insert of processApproval: an INSERT into approvals wrapped
in try/catch; the UNIQUE (buyin_id, approver_user_id) constraint makes a
duplicate insert throw, and the catch swallows it, so a duplicate pair
leaves the table unchanged. -/
def insertApproval (s : Store) (buyinId : Nat) (approverId : String) (d : Decision) (t : Nat) : Store :=
  if (s.approvals.find? (fun a => decide (a.buyinId = buyinId ∧ a.approverUserId = approverId))).isSome
  then s
  else { s with approvals := s.approvals ++ [⟨buyinId, approverId, d, t⟩] }

/-- tally of one decision for one buy-in
(`SELECT decision, COUNT(*) ... GROUP BY decision`). -/
def countDecision (s : Store) (buyinId : Nat) (d : Decision) : Nat :=
  (s.approvals.filter (fun a => decide (a.buyinId = buyinId ∧ a.decision = d))).length

/-- status of the buy-in a given id denotes. -/
def buyinStatus (s : Store) (id : Nat) : Option BStatus :=
  (s.buyins.find? (fun b => decide (b.id = id))).map Buyin.status

/-- player row of the projected view (PlayerRow in index.ts). -/
structure PlayerRowV where
  userId : String
  username : String
  firstName : String
  approvedCents : Int
  pendingCount : Nat
deriving DecidableEq, Repr

/-- pending row of the projected view (PendingRow in index.ts). -/
structure PendingRowV where
  id : Nat
  userId : String
  username : String
  firstName : String
  amountCents : Int
  approvals : Nat
  rejects : Nat
deriving DecidableEq, Repr

/-- GROUP BY p.user_id: keep the first row of each user id. -/
def dedupByUser (seen : List String) : List Player → List Player
  | [] => []
  | p :: ps =>
    if p.userId ∈ seen then dedupByUser seen ps
    else p :: dedupByUser (p.userId :: seen) ps

/-- one aggregated player row: COALESCEd display columns, the sum of the
player's approved buy-in amounts and the count of their pending buy-ins
(the LEFT JOIN on (game_id, user_id), grouped). -/
def playerRowOf (s : Store) (p : Player) : PlayerRowV :=
  { userId := p.userId
    username := p.username.getD ""
    firstName := p.firstName.getD ""
    approvedCents :=
      ((s.buyins.filter (fun b =>
        decide (b.gameId = p.gameId ∧ b.userId = p.userId ∧ b.status = BStatus.approved))).map
        Buyin.amountCents).sum
    pendingCount :=
      (s.buyins.filter (fun b =>
        decide (b.gameId = p.gameId ∧ b.userId = p.userId ∧ b.status = BStatus.pending))).length }

/-- one pending row: requester display columns via the LEFT JOIN on
players (unique per (game, user)), and the approve/reject tallies. -/
def pendingRowOf (s : Store) (b : Buyin) : PendingRowV :=
  let pl := s.players.find? (fun p => decide (p.gameId = b.gameId ∧ p.userId = b.userId))
  { id := b.id
    userId := b.userId
    username := (pl.bind Player.username).getD ""
    firstName := (pl.bind Player.firstName).getD ""
    amountCents := b.amountCents
    approvals := countDecision s b.id Decision.approve
    rejects := countDecision s b.id Decision.reject }

/-- byte-wise text comparison of the store's BINARY collation, on the
character lists of the two strings (code-point order and UTF-8 memcmp
order coincide). -/
def charListLE : List Char → List Char → Bool
  | [], _ => true
  | _ :: _, [] => false
  | c :: cs, d :: ds =>
    if c.toNat < d.toNat then true
    else if d.toNat < c.toNat then false
    else charListLE cs ds

theorem charListLE_total : ∀ a b, charListLE a b = true ∨ charListLE b a = true := by
  intro a
  induction a with
  | nil => intro b; exact Or.inl rfl
  | cons c cs ih =>
    intro b
    cases b with
    | nil => exact Or.inr rfl
    | cons d ds =>
      rcases Nat.lt_trichotomy c.toNat d.toNat with h | h | h
      · left
        simp [charListLE, h]
      · rcases ih ds with h2 | h2
        · left
          simp [charListLE, h, h2]
        · right
          simp [charListLE, h.symm, h2]
      · right
        simp [charListLE, h]

theorem charListLE_trans :
    ∀ a b c, charListLE a b = true → charListLE b c = true → charListLE a c = true := by
  intro a
  induction a with
  | nil => intro b c _ _; rfl
  | cons x xs ih =>
    intro b c hab hbc
    cases b with
    | nil => simp [charListLE] at hab
    | cons y ys =>
      cases c with
      | nil => simp [charListLE] at hbc
      | cons z zs =>
        simp only [charListLE] at hab hbc ⊢
        by_cases h1 : x.toNat < y.toNat
        · by_cases h2 : y.toNat < z.toNat
          · simp [Nat.lt_trans h1 h2]
          · by_cases h3 : z.toNat < y.toNat
            · simp [h2, h3] at hbc
            · have hyz : y.toNat = z.toNat := by omega
              simp [hyz ▸ h1]
        · by_cases h1' : y.toNat < x.toNat
          · simp [h1, h1'] at hab
          · have hxy : x.toNat = y.toNat := by omega
            simp only [if_neg h1, if_neg h1'] at hab
            by_cases h2 : y.toNat < z.toNat
            · simp [hxy ▸ h2]
            · by_cases h3 : z.toNat < y.toNat
              · simp [h2, h3] at hbc
              · simp only [if_neg h2, if_neg h3] at hbc
                have hxz1 : ¬ x.toNat < z.toNat := by omega
                have hxz2 : ¬ z.toNat < x.toNat := by omega
                simp only [if_neg hxz1, if_neg hxz2]
                exact ih ys zs hab hbc

/-- sort key of the players query: `ORDER BY approved_cents DESC, username`
— the stored (COALESCEd) username, not the rendered display label. -/
def playerLE (a b : PlayerRowV) : Prop :=
  b.approvedCents < a.approvedCents ∨
    (a.approvedCents = b.approvedCents ∧
      charListLE a.username.toList b.username.toList = true)

instance : DecidableRel playerLE := fun a b => by
  unfold playerLE
  exact inferInstance

instance : IsTotal PlayerRowV playerLE := by
  constructor
  intro a b
  unfold playerLE
  rcases lt_trichotomy a.approvedCents b.approvedCents with h | h | h
  · exact Or.inr (Or.inl h)
  · rcases charListLE_total a.username.toList b.username.toList with hu | hu
    · exact Or.inl (Or.inr ⟨h, hu⟩)
    · exact Or.inr (Or.inr ⟨h.symm, hu⟩)
  · exact Or.inl (Or.inl h)

instance : IsTrans PlayerRowV playerLE := by
  constructor
  intro a b c hab hbc
  unfold playerLE at *
  rcases hab with h1 | ⟨h1, hu1⟩
  · rcases hbc with h2 | ⟨h2, _⟩
    · exact Or.inl (h2.trans h1)
    · exact Or.inl (h2 ▸ h1)
  · rcases hbc with h2 | ⟨h2, hu2⟩
    · exact Or.inl (by rw [h1]; exact h2)
    · exact Or.inr ⟨h1.trans h2, charListLE_trans _ _ _ hu1 hu2⟩

/-- sort key of the pending query: `ORDER BY b.id ASC`. -/
def pendingLE (a b : PendingRowV) : Prop := a.id ≤ b.id

instance : DecidableRel pendingLE := fun a b => by
  unfold pendingLE
  exact inferInstance

instance : IsTotal PendingRowV pendingLE := by
  constructor
  intro a b
  exact le_total a.id b.id

instance : IsTrans PendingRowV pendingLE := by
  constructor
  intro a b c hab hbc
  exact Nat.le_trans hab hbc

/-- the projected view of one game (composeGameState in index.ts). -/
structure GameState where
  players : List PlayerRowV
  pending : List PendingRowV
deriving DecidableEq, Repr

/-- composeGameState from index.ts: aggregated player rows ordered by
approved total descending then username ascending, and pending rows
ordered by id ascending. -/
def composeGameState (s : Store) (gameId : Nat) : GameState :=
  { players :=
      List.insertionSort playerLE
        ((dedupByUser [] (s.players.filter (fun p => decide (p.gameId = gameId)))).map
          (playerRowOf s))
    pending :=
      List.insertionSort pendingLE
        ((s.buyins.filter (fun b =>
          decide (b.gameId = gameId ∧ b.status = BStatus.pending))).map (pendingRowOf s)) }

/-- JSON.stringify of a one-field action payload. -/
def encodeActionT (t : String) : String :=
  "\x7b\"t\":\"" ++ t ++ "\"\x7d"

/-- JSON.stringify of a two-field action payload with a numeric id. -/
def encodeActionTId (t : String) (id : Nat) : String :=
  "\x7b\"t\":\"" ++ t ++ "\",\"id\":" ++ toString id ++ "\x7d"

/-- one inline-keyboard button. -/
structure Button where
  text : String
  callbackData : String
deriving DecidableEq, Repr

/-- buildStatusKeyboard from index.ts: none for a non-active game,
otherwise the two fixed control rows plus one approve/reject pair per
pending row, capped at MAX_PENDING_ROWS_IN_KEYBOARD. -/
def buildStatusKeyboard (game : Game) (pending : List PendingRowV) : Option (List (List Button)) :=
  if game.status ≠ GStatus.active then none
  else some
    ([[⟨"Join game", encodeActionT "join"⟩,
       ⟨"Buy-in (" ++ fmtMoney game.buyInCents ++ ")", encodeActionT "buyin"⟩],
      [⟨"Refresh", encodeActionT "refresh"⟩,
       ⟨"End game", encodeActionT "end"⟩]] ++
      (pending.take MAX_PENDING_ROWS_IN_KEYBOARD).map (fun p =>
        [⟨"Approve #" ++ toString p.id ++ " (" ++ toString p.approvals ++ "/" ++
            toString APPROVALS_REQUIRED ++ ")", encodeActionTId "approve" p.id⟩,
         ⟨"Reject #" ++ toString p.id ++ " (" ++ toString p.rejects ++ "/" ++
            toString APPROVALS_REQUIRED ++ ")", encodeActionTId "reject" p.id⟩]))

/-- buildStatusText from index.ts. -/
def buildStatusText (game : Game) (st : GameState) : String :=
  let header := if game.status = GStatus.ended then "*Game ended*" else "*Poker Night*"
  let l1 := [header, "Buy-in: " ++ fmtMoney game.buyInCents, ""]
  let l2 :=
    if st.players.isEmpty then ["_No players yet._"]
    else "*Players*" :: st.players.map (fun p =>
      let label := displayName p.username p.firstName p.userId
      let pendingText :=
        if p.pendingCount ≠ 0 then " (pending " ++ toString p.pendingCount ++ ")" else ""
      "- " ++ label ++ ": " ++ fmtMoney p.approvedCents ++ pendingText)
  let l3 :=
    if st.pending.isEmpty then []
    else "" :: "*Pending buy-ins*" :: st.pending.map (fun b =>
      "#" ++ toString b.id ++ " " ++ displayName b.username b.firstName b.userId ++ " - " ++
        fmtMoney b.amountCents ++ " (" ++ toString b.approvals ++ "/" ++
        toString APPROVALS_REQUIRED ++ ")")
  let l4 := if game.status = GStatus.ended then ["", "Start a new game with /startgame <amount>."] else []
  joinLines (l1 ++ l2 ++ l3 ++ l4)

/-- the sendMessage fallback inside refreshGameMessage: on a returned
message_id the game row's status_message_id is updated and the call
reports success; otherwise it reports failure without touching the store. -/
def sendNew (tg : Telegram) (s : Store) (game : Game) : Bool × Store :=
  match tg.sendResult with
  | some mid =>
    (true,
      { s with games := s.games.map (fun g =>
          if g.id = game.id then { g with statusMessageId := some mid } else g) })
  | none => (false, s)

/-- refreshGameMessage from index.ts: resolve the game, render text and
keyboard, then try an in-place edit of the recorded status message; on
edit failure (or no recorded message) fall back to sending a new message
— unless allowCreate is false, in which case it fails without sending. -/
def refreshGameMessage (tg : Telegram) (s : Store) (chatId : Int)
    (providedGame : Option Game) (allowCreate : Bool) : Bool × Store :=
  match providedGame.orElse (fun _ => currentGame s chatId) with
  | none => (false, s)
  | some game =>
    let st := composeGameState s game.id
    let _text := buildStatusText game st
    let _markup := buildStatusKeyboard game st.pending
    match game.statusMessageId with
    | some _ =>
      if tg.editOk then (true, s)
      else if allowCreate then sendNew tg s game
      else (false, s)
    | none =>
      if allowCreate then sendNew tg s game
      else (false, s)

/-- startGame from index.ts. -/
def startGame (tg : Telegram) (s : Store) (chatId : Int) (argText : String) (t : Nat) :
    ActionResult × Store :=
  match s.games.find? (fun g => decide (g.chatId = chatId ∧ g.status = GStatus.active)) with
  | some _ => ({ ok := false, message := some "There is already an active game in this chat." }, s)
  | none =>
    match scanAmount argText.toList with
    | none =>
      ({ ok := false, message := some "Usage: /startgame <buy-in amount>. Example: /startgame 50" }, s)
    | some numeric =>
      if numeric ≤ 0 then
        ({ ok := false, message := some "Buy-in must be greater than zero." }, s)
      else
        let game : Game :=
          { id := s.nextGameId, chatId := chatId, status := GStatus.active, startedAt := t,
            endedAt := none, buyInCents := toCents numeric, statusMessageId := none }
        let s1 := { s with games := s.games ++ [game], nextGameId := s.nextGameId + 1 }
        let s2 :=
          match getGameById s1 game.id with
          | some g => (refreshGameMessage tg s1 chatId (some g) true).2
          | none => s1
        ({ ok := true, message := some "Game started." }, s2)

/-- joinGame from index.ts. -/
def joinGame (tg : Telegram) (s : Store) (chatId : Int) (user : TgUser) (t : Nat) :
    ActionResult × Store :=
  match currentGame s chatId with
  | none => ({ ok := false, message := some "No active game. Use /startgame first." }, s)
  | some game =>
    if (s.players.find? (fun p => decide (p.gameId = game.id ∧ p.userId = uid user))).isSome then
      ({ ok := false, message := some "You are already part of this game." }, s)
    else
      let p : Player :=
        { gameId := game.id, userId := uid user, username := orNull user.username,
          firstName := orNull user.firstName, joinedAt := t }
      let s1 := { s with players := s.players ++ [p] }
      let s2 := (refreshGameMessage tg s1 chatId (some game) true).2
      ({ ok := true, message := some "Joined the game." }, s2)

/-- buyIn from index.ts. -/
def buyIn (tg : Telegram) (s : Store) (chatId : Int) (user : TgUser) (argText : Option String)
    (t : Nat) : ActionResult × Store :=
  match currentGame s chatId with
  | none => ({ ok := false, message := some "No active game. Use /startgame first." }, s)
  | some game =>
    if (s.players.find? (fun p => decide (p.gameId = game.id ∧ p.userId = uid user))).isNone then
      ({ ok := false, message := some "Please join the game before buying in." }, s)
    else
      let centsE : Except String Int :=
        match argText.map String.trim with
        | some trimmed =>
          if trimmed = "" then Except.ok game.buyInCents
          else
            match scanAmount trimmed.toList with
            | none => Except.error "Usage: /buyin <amount>. Example: /buyin 50"
            | some numeric =>
              if numeric ≤ 0 then Except.error "Amount must be greater than zero."
              else Except.ok (toCents numeric)
        | none => Except.ok game.buyInCents
      match centsE with
      | Except.error m => ({ ok := false, message := some m }, s)
      | Except.ok cents =>
        if cents ≤ 0 then
          ({ ok := false,
             message := some "No default buy-in found. Restart the game with /startgame <amount>." }, s)
        else
          let b : Buyin :=
            { id := s.nextBuyinId, gameId := game.id, userId := uid user, amountCents := cents,
              createdAt := t, status := BStatus.pending }
          let s1 := { s with buyins := s.buyins ++ [b], nextBuyinId := s.nextBuyinId + 1 }
          let s2 := (refreshGameMessage tg s1 chatId (some game) true).2
          ({ ok := true, message := some "Buy-in submitted for approval." }, s2)

/-- processApproval from index.ts: the vote operation. -/
def processApproval (tg : Telegram) (s : Store) (chatId : Int) (buyinId : Nat) (approver : TgUser)
    (decision : Decision) (t : Nat) : ActionResult × Store :=
  if buyinId = 0 then ({ ok := false, message := some "Invalid buy-in." }, s)
  else
    match s.buyins.find? (fun b => decide (b.id = buyinId)) with
    | none => ({ ok := false, message := some "Buy-in not found." }, s)
    | some buyin =>
      if buyin.status ≠ BStatus.pending then
        ({ ok := false, message := some "Buy-in already resolved." }, s)
      else if buyin.userId = uid approver then
        ({ ok := false, message := some "You cannot vote on your own buy-in." }, s)
      else if (s.players.find? (fun p =>
          decide (p.gameId = buyin.gameId ∧ p.userId = uid approver))).isNone then
        ({ ok := false, message := some "Only players can approve or reject buy-ins." }, s)
      else
        let s1 := insertApproval s buyinId (uid approver) decision t
        let approvals := countDecision s1 buyinId Decision.approve
        let rejects := countDecision s1 buyinId Decision.reject
        let s2 :=
          if approvals ≥ APPROVALS_REQUIRED then setBuyinStatus s1 buyinId BStatus.approved
          else if rejects ≥ APPROVALS_REQUIRED then setBuyinStatus s1 buyinId BStatus.rejected
          else s1
        let message :=
          if approvals ≥ APPROVALS_REQUIRED then "Buy-in #" ++ toString buyinId ++ " approved."
          else if rejects ≥ APPROVALS_REQUIRED then "Buy-in #" ++ toString buyinId ++ " rejected."
          else "Vote recorded (" ++ toString approvals ++ "/" ++ toString APPROVALS_REQUIRED ++ ")."
        let s3 :=
          match getGameById s2 buyin.gameId with
          | some game => (refreshGameMessage tg s2 game.chatId (some game) true).2
          | none => (refreshGameMessage tg s2 chatId none true).2
        ({ ok := true, message := some message }, s3)

/-- endGame from index.ts. -/
def endGame (tg : Telegram) (s : Store) (chatId : Int) (t : Nat) : ActionResult × Store :=
  match currentGame s chatId with
  | none => ({ ok := false, message := some "No active game." }, s)
  | some game =>
    let s1 :=
      { s with games := s.games.map (fun g =>
          if g.id = game.id then { g with status := GStatus.ended, endedAt := some t } else g) }
    let s2 :=
      match getGameById s1 game.id with
      | some updated => (refreshGameMessage tg s1 chatId (some updated) true).2
      | none => s1
    ({ ok := true, message := some "Game ended." }, s2)

/-- one store-mutating operation of the worker, with the Telegram oracle
and the wall-clock second it observes. -/
inductive Op
  | start (tg : Telegram) (chatId : Int) (argText : String) (t : Nat)
  | join (tg : Telegram) (chatId : Int) (user : TgUser) (t : Nat)
  | request (tg : Telegram) (chatId : Int) (user : TgUser) (argText : Option String) (t : Nat)
  | vote (tg : Telegram) (chatId : Int) (buyinId : Nat) (approver : TgUser) (decision : Decision) (t : Nat)
  | endg (tg : Telegram) (chatId : Int) (t : Nat)

/-- execute one operation. -/
def step (s : Store) : Op → ActionResult × Store
  | Op.start tg chatId argText t => startGame tg s chatId argText t
  | Op.join tg chatId user t => joinGame tg s chatId user t
  | Op.request tg chatId user argText t => buyIn tg s chatId user argText t
  | Op.vote tg chatId buyinId approver decision t => processApproval tg s chatId buyinId approver decision t
  | Op.endg tg chatId t => endGame tg s chatId t

/-- execute a sequence of operations. -/
def run (s : Store) : List Op → Store
  | [] => s
  | o :: os => run (step s o).2 os

/-- the rounding the spec asserts, in its words: round-half-to-even of the
scaled value.  Stated only to compare against the code's toCents. -/
def roundHalfToEven (q : ℚ) : ℤ :=
  if Int.fract q < 1 / 2 then ⌊q⌋
  else if 1 / 2 < Int.fract q then ⌊q⌋ + 1
  else if ⌊q⌋ % 2 = 0 then ⌊q⌋ else ⌊q⌋ + 1

/-- the player ordering the spec asserts, in its words: approved total
descending, then display label ascending.  Stated only to compare against
the code's username-keyed ordering. -/
def specPlayerLE (a b : PlayerRowV) : Prop :=
  b.approvedCents < a.approvedCents ∨
    (a.approvedCents = b.approvedCents ∧
      charListLE (displayName a.username a.firstName a.userId).toList
        (displayName b.username b.firstName b.userId).toList = true)

instance : DecidableRel specPlayerLE := fun a b => by
  unfold specPlayerLE
  exact inferInstance

/-- the spec's ordering applied to a row multiset. -/
def specSortPlayers (rows : List PlayerRowV) : List PlayerRowV :=
  List.insertionSort specPlayerLE rows

/-- number of active games the store holds for one chat. -/
def activeP (c : Int) : Game → Bool :=
  fun g => decide (g.chatId = c ∧ g.status = GStatus.active)

/-- count of active games of a chat. -/
def activeCount (s : Store) (c : Int) : Nat := s.games.countP (activeP c)

/-- count of vote rows of one (request, voter) pair. -/
def votesFor (s : Store) (buyinId : Nat) (voter : String) : Nat :=
  s.approvals.countP (fun a => decide (a.buyinId = buyinId ∧ a.approverUserId = voter))

/-- a game row without its status-artifact pointer. -/
def gameData (g : Game) : Game := { g with statusMessageId := none }

theorem find?_map_point {α : Type} (f : α → α) (p : α → Bool) (l : List α)
    (hp : ∀ x, p (f x) = p x) :
    (l.map f).find? p = (l.find? p).map f := by
  induction l with
  | nil => rfl
  | cons a l ih =>
    simp only [List.map_cons, List.find?_cons, hp]
    by_cases h : p a
    · simp [h]
    · simp [h, ih]

theorem mem_length_le_one {α : Type} {l : List α} {a : α}
    (ha : a ∈ l) (hl : l.length ≤ 1) : l = [a] := by
  match l, ha with
  | [x], ha =>
    simp only [List.mem_singleton] at ha
    rw [ha]
  | x :: y :: rest, ha => simp at hl

theorem maxById_eq_none {l : List Game} : maxById l = none ↔ l = [] := by
  cases l with
  | nil => simp [maxById]
  | cons g gs =>
    simp only [maxById]
    cases maxById gs with
    | none => simp
    | some h => by_cases hc : h.id > g.id <;> simp [hc]

theorem maxById_mem {l : List Game} {g : Game} (h : maxById l = some g) : g ∈ l := by
  induction l with
  | nil => simp [maxById] at h
  | cons a l ih =>
    cases hm : maxById l with
    | none =>
      simp only [maxById, hm, Option.some.injEq] at h
      simp [← h]
    | some b =>
      by_cases hc : b.id > a.id
      · simp only [maxById, hm, if_pos hc, Option.some.injEq] at h
        exact List.mem_cons_of_mem a (ih (h ▸ hm))
      · simp only [maxById, hm, if_neg hc, Option.some.injEq] at h
        simp [← h]

theorem currentGame_eq_none {s : Store} {c : Int} :
    currentGame s c = none ↔ activeCount s c = 0 := by
  unfold currentGame activeCount
  rw [maxById_eq_none, List.countP_eq_length_filter, List.length_eq_zero]
  rfl

theorem refresh_components (tg : Telegram) (s : Store) (c : Int) (pg : Option Game) (ac : Bool) :
    ((refreshGameMessage tg s c pg ac).2).players = s.players ∧
    ((refreshGameMessage tg s c pg ac).2).buyins = s.buyins ∧
    ((refreshGameMessage tg s c pg ac).2).approvals = s.approvals ∧
    ((refreshGameMessage tg s c pg ac).2).nextGameId = s.nextGameId ∧
    ((refreshGameMessage tg s c pg ac).2).nextBuyinId = s.nextBuyinId := by
  simp only [refreshGameMessage, sendNew]
  repeat' split
  all_goals exact ⟨rfl, rfl, rfl, rfl, rfl⟩

theorem refresh_games_cases (tg : Telegram) (s : Store) (c : Int) (pg : Option Game) (ac : Bool) :
    ((refreshGameMessage tg s c pg ac).2).games = s.games ∨
    ∃ i m, ((refreshGameMessage tg s c pg ac).2).games
      = s.games.map (fun g => if g.id = i then { g with statusMessageId := some m } else g) := by
  simp only [refreshGameMessage, sendNew]
  repeat' split
  all_goals first
    | exact Or.inl rfl
    | exact Or.inr ⟨_, _, rfl⟩

theorem refresh_players (tg : Telegram) (s : Store) (c : Int) (pg : Option Game) (ac : Bool) :
    ((refreshGameMessage tg s c pg ac).2).players = s.players :=
  (refresh_components tg s c pg ac).1

theorem refresh_buyins (tg : Telegram) (s : Store) (c : Int) (pg : Option Game) (ac : Bool) :
    ((refreshGameMessage tg s c pg ac).2).buyins = s.buyins :=
  (refresh_components tg s c pg ac).2.1

theorem refresh_approvals (tg : Telegram) (s : Store) (c : Int) (pg : Option Game) (ac : Bool) :
    ((refreshGameMessage tg s c pg ac).2).approvals = s.approvals :=
  (refresh_components tg s c pg ac).2.2.1

theorem refresh_activeCount (tg : Telegram) (s : Store) (c0 : Int) (pg : Option Game) (ac : Bool)
    (c : Int) : activeCount ((refreshGameMessage tg s c0 pg ac).2) c = activeCount s c := by
  unfold activeCount
  rcases refresh_games_cases tg s c0 pg ac with h | ⟨i, m, h⟩
  · rw [h]
  · rw [h, List.countP_map]
    apply List.countP_congr
    intro a _
    by_cases hid : a.id = i <;> simp [Function.comp, hid, activeP]

theorem refresh_getGameById_data (tg : Telegram) (s : Store) (c0 : Int) (pg : Option Game)
    (ac : Bool) (i : Nat) :
    (getGameById ((refreshGameMessage tg s c0 pg ac).2) i).map gameData
      = (getGameById s i).map gameData := by
  unfold getGameById
  rcases refresh_games_cases tg s c0 pg ac with h | ⟨j, m, h⟩
  · rw [h]
  · rw [h, find?_map_point]
    · cases hf : s.games.find? (fun g => decide (g.id = i)) with
      | none => rfl
      | some g =>
        simp only [Option.map_some']
        congr 1
        by_cases hid : g.id = j <;> simp [gameData, hid]
    · intro x
      by_cases hid : x.id = j <;> simp [hid]

theorem insertApproval_parts (s : Store) (i : Nat) (a : String) (d : Decision) (t : Nat) :
    (insertApproval s i a d t).games = s.games ∧
    (insertApproval s i a d t).players = s.players ∧
    (insertApproval s i a d t).buyins = s.buyins := by
  unfold insertApproval
  split <;> exact ⟨rfl, rfl, rfl⟩

theorem setBuyinStatus_approvals (s : Store) (i : Nat) (st : BStatus) :
    (setBuyinStatus s i st).approvals = s.approvals := rfl

theorem buyinStatus_refresh (tg : Telegram) (s : Store) (c : Int) (pg : Option Game) (ac : Bool)
    (i : Nat) : buyinStatus ((refreshGameMessage tg s c pg ac).2) i = buyinStatus s i := by
  unfold buyinStatus
  rw [refresh_buyins]

theorem buyinStatus_insertApproval (s : Store) (i0 : Nat) (a : String) (d : Decision) (t : Nat)
    (i : Nat) : buyinStatus (insertApproval s i0 a d t) i = buyinStatus s i := by
  unfold buyinStatus
  rw [(insertApproval_parts s i0 a d t).2.2]

theorem buyinStatus_set_other (s : Store) (i0 i : Nat) (st' : BStatus) (h : i0 ≠ i) :
    buyinStatus (setBuyinStatus s i0 st') i = buyinStatus s i := by
  unfold buyinStatus setBuyinStatus
  rw [find?_map_point]
  · cases hf : s.buyins.find? (fun b => decide (b.id = i)) with
    | none => rfl
    | some b =>
      have hb : b.id = i := by simpa using List.find?_some hf
      have : ¬ b.id = i0 := by rw [hb]; exact fun hEq => h hEq.symm
      simp [this]
  · intro x
    by_cases hx : x.id = i0 <;> simp [hx]

theorem startGame_parts (tg : Telegram) (s : Store) (c : Int) (txt : String) (t : Nat) :
    ((startGame tg s c txt t).2).buyins = s.buyins ∧
    ((startGame tg s c txt t).2).approvals = s.approvals ∧
    ((startGame tg s c txt t).2).players = s.players := by
  simp only [startGame]
  repeat' split
  all_goals first
    | exact ⟨rfl, rfl, rfl⟩
    | exact ⟨refresh_buyins _ _ _ _ _, refresh_approvals _ _ _ _ _, refresh_players _ _ _ _ _⟩

theorem joinGame_parts (tg : Telegram) (s : Store) (c : Int) (u : TgUser) (t : Nat) :
    ((joinGame tg s c u t).2).buyins = s.buyins ∧
    ((joinGame tg s c u t).2).approvals = s.approvals ∧
    (∀ ch, activeCount ((joinGame tg s c u t).2) ch = activeCount s ch) := by
  simp only [joinGame]
  repeat' split
  all_goals first
    | exact ⟨rfl, rfl, fun ch => rfl⟩
    | exact ⟨refresh_buyins _ _ _ _ _, refresh_approvals _ _ _ _ _,
        fun ch => refresh_activeCount _ _ _ _ _ ch⟩

theorem buyIn_parts (tg : Telegram) (s : Store) (c : Int) (u : TgUser) (a : Option String)
    (t : Nat) :
    (∃ rest, ((buyIn tg s c u a t).2).buyins = s.buyins ++ rest) ∧
    ((buyIn tg s c u a t).2).approvals = s.approvals ∧
    (∀ ch, activeCount ((buyIn tg s c u a t).2) ch = activeCount s ch) := by
  simp only [buyIn]
  repeat' split
  all_goals first
    | exact ⟨⟨[], by simp⟩, rfl, fun ch => rfl⟩
    | exact ⟨⟨_, refresh_buyins _ _ _ _ _⟩, refresh_approvals _ _ _ _ _,
        fun ch => refresh_activeCount _ _ _ _ _ ch⟩

theorem processApproval_activeCount (tg : Telegram) (s : Store) (c : Int) (i : Nat) (u : TgUser)
    (d : Decision) (t : Nat) (ch : Int) :
    activeCount ((processApproval tg s c i u d t).2) ch = activeCount s ch := by
  have hins : ∀ s' : Store, activeCount (insertApproval s' i (uid u) d t) ch = activeCount s' ch := by
    intro s'
    unfold activeCount
    rw [(insertApproval_parts s' i (uid u) d t).1]
  simp only [processApproval]
  repeat' split
  all_goals first
    | rfl
    | (rw [refresh_activeCount]; exact hins s)

theorem processApproval_resolved_preserved (tg : Telegram) (s : Store) (c : Int) (i0 : Nat)
    (u : TgUser) (d : Decision) (t : Nat) (i : Nat) (st : BStatus)
    (hst : buyinStatus s i = some st) (hres : st ≠ BStatus.pending) :
    buyinStatus ((processApproval tg s c i0 u d t).2) i = some st := by
  simp only [processApproval]
  split
  · exact hst
  · split
    · exact hst
    · rename_i buyin heq
      split
      · exact hst
      · rename_i hpend
        split
        · exact hst
        · split
          · exact hst
          · have hpend' : buyin.status = BStatus.pending := not_not.mp hpend
            have hii : i0 ≠ i := by
              intro hEq
              subst hEq
              unfold buyinStatus at hst
              rw [heq, Option.map_some', Option.some.injEq] at hst
              exact hres (hst ▸ hpend')
            repeat' split
            all_goals rw [buyinStatus_refresh]
            all_goals first
              | (rw [buyinStatus_set_other _ _ _ _ hii, buyinStatus_insertApproval]; exact hst)
              | (rw [buyinStatus_insertApproval]; exact hst)

theorem processApproval_approvals_cases (tg : Telegram) (s : Store) (c : Int) (i : Nat)
    (u : TgUser) (d : Decision) (t : Nat) :
    ((processApproval tg s c i u d t).2).approvals = s.approvals ∨
    ((s.approvals.find? (fun a => decide (a.buyinId = i ∧ a.approverUserId = uid u))) = none ∧
      ((processApproval tg s c i u d t).2).approvals = s.approvals ++ [⟨i, uid u, d, t⟩]) := by
  have hset : ∀ (s' : Store) (j : Nat) (st : BStatus),
      (setBuyinStatus s' j st).approvals = s'.approvals := fun _ _ _ => rfl
  simp only [processApproval]
  repeat' split
  all_goals first
    | exact Or.inl rfl
    | (rw [refresh_approvals]
       first
         | rw [hset]
         | skip
       unfold insertApproval
       split
       · exact Or.inl rfl
       · rename_i hnone
         exact Or.inr ⟨Option.not_isSome_iff_eq_none.mp hnone, rfl⟩)

theorem endGame_parts (tg : Telegram) (s : Store) (c : Int) (t : Nat) :
    ((endGame tg s c t).2).buyins = s.buyins ∧
    ((endGame tg s c t).2).approvals = s.approvals ∧
    ((endGame tg s c t).2).players = s.players := by
  simp only [endGame]
  repeat' split
  all_goals first
    | exact ⟨rfl, rfl, rfl⟩
    | exact ⟨refresh_buyins _ _ _ _ _, refresh_approvals _ _ _ _ _, refresh_players _ _ _ _ _⟩

theorem step_resolved_preserved (s : Store) (o : Op) (i : Nat) (st : BStatus)
    (hst : buyinStatus s i = some st) (hres : st ≠ BStatus.pending) :
    buyinStatus (step s o).2 i = some st := by
  cases o with
  | start tg c txt t =>
    unfold step buyinStatus
    rw [(startGame_parts tg s c txt t).1]
    exact hst
  | join tg c u t =>
    unfold step buyinStatus
    rw [(joinGame_parts tg s c u t).1]
    exact hst
  | request tg c u a t =>
    obtain ⟨rest, hr⟩ := (buyIn_parts tg s c u a t).1
    unfold step buyinStatus
    rw [hr, List.find?_append]
    unfold buyinStatus at hst
    cases hf : s.buyins.find? (fun b => decide (b.id = i)) with
    | none => rw [hf] at hst; simp at hst
    | some b =>
      rw [hf] at hst
      simpa using hst
  | vote tg c i0 u2 d t => exact processApproval_resolved_preserved tg s c i0 u2 d t i st hst hres
  | endg tg c t =>
    unfold step buyinStatus
    rw [(endGame_parts tg s c t).1]
    exact hst

theorem run_resolved_preserved (ops : List Op) (s : Store) (i : Nat) (st : BStatus)
    (hst : buyinStatus s i = some st) (hres : st ≠ BStatus.pending) :
    buyinStatus (run s ops) i = some st := by
  induction ops generalizing s with
  | nil => exact hst
  | cons o os ih => exact ih _ (step_resolved_preserved s o i st hst hres)

theorem step_active_le_one (s : Store) (o : Op) (hinv : ∀ ch, activeCount s ch ≤ 1) :
    ∀ ch, activeCount (step s o).2 ch ≤ 1 := by
  intro ch
  cases o with
  | start tg c txt t =>
    unfold step
    simp only [startGame]
    repeat' split
    all_goals try exact hinv ch
    all_goals try rw [refresh_activeCount]
    all_goals
      simp only [activeCount, List.countP_append]
      by_cases hc : c = ch
      · subst hc
        have h0 : s.games.countP (activeP c) = 0 :=
          List.countP_eq_zero.mpr (fun g hg => List.find?_eq_none.mp (by assumption) g hg)
        rw [h0]
        simp [activeP, List.countP_singleton]
      · simp [activeP, List.countP_singleton, hc]
        exact hinv ch
  | join tg c u t =>
    unfold step
    rw [(joinGame_parts tg s c u t).2.2 ch]
    exact hinv ch
  | request tg c u a t =>
    unfold step
    rw [(buyIn_parts tg s c u a t).2.2 ch]
    exact hinv ch
  | vote tg c i u2 d t =>
    unfold step
    rw [processApproval_activeCount tg s c i u2 d t ch]
    exact hinv ch
  | endg tg c t =>
    unfold step
    simp only [endGame]
    split
    · exact hinv ch
    · rename_i game hcur
      have hmap : activeCount
          { s with games := s.games.map (fun g =>
              if g.id = game.id then { g with status := GStatus.ended, endedAt := some t } else g) }
          ch ≤ 1 := by
        simp only [activeCount, List.countP_map]
        refine le_trans (List.countP_mono_left ?_) (hinv ch)
        intro g _ hg
        simp only [Function.comp] at hg
        by_cases hid : g.id = game.id
        · simp [activeP, hid] at hg
        · simpa [hid] using hg
      split
      · rw [refresh_activeCount]
        exact hmap
      · exact hmap

theorem run_active_le_one (ops : List Op) (s : Store) (hinv : ∀ ch, activeCount s ch ≤ 1) :
    ∀ ch, activeCount (run s ops) ch ≤ 1 := by
  induction ops generalizing s with
  | nil => exact hinv
  | cons o os ih => exact ih _ (step_active_le_one s o hinv)

theorem processApproval_dup_tally (tg : Telegram) (s : Store) (c : Int) (i : Nat) (u : TgUser)
    (d : Decision) (t : Nat)
    (hdup : (s.approvals.find? (fun a =>
      decide (a.buyinId = i ∧ a.approverUserId = uid u))).isSome) :
    ((processApproval tg s c i u d t).2).approvals = s.approvals := by
  rcases processApproval_approvals_cases tg s c i u d t with h | ⟨hnone, _⟩
  · exact h
  · rw [hnone] at hdup
    simp at hdup

theorem step_votes_le_one (s : Store) (o : Op) (hinv : ∀ bId v, votesFor s bId v ≤ 1) :
    ∀ bId v, votesFor (step s o).2 bId v ≤ 1 := by
  intro bId v
  cases o with
  | start tg c txt t =>
    unfold step votesFor
    rw [(startGame_parts tg s c txt t).2.1]
    exact hinv bId v
  | join tg c u t =>
    unfold step votesFor
    rw [(joinGame_parts tg s c u t).2.1]
    exact hinv bId v
  | request tg c u a t =>
    unfold step votesFor
    rw [(buyIn_parts tg s c u a t).2.1]
    exact hinv bId v
  | endg tg c t =>
    unfold step votesFor
    rw [(endGame_parts tg s c t).2.1]
    exact hinv bId v
  | vote tg c i u2 d t =>
    unfold step votesFor
    rcases processApproval_approvals_cases tg s c i u2 d t with h | ⟨hnone, h⟩
    · rw [h]
      exact hinv bId v
    · rw [h, List.countP_append]
      by_cases hpair : bId = i ∧ v = uid u2
      · obtain ⟨h1, h2⟩ := hpair
        have h0 : s.approvals.countP
            (fun a => decide (a.buyinId = bId ∧ a.approverUserId = v)) = 0 := by
          apply List.countP_eq_zero.mpr
          intro a ha
          have hnp := List.find?_eq_none.mp hnone a ha
          rw [h1, h2]
          exact hnp
        rw [h0]
        have hle := @List.countP_le_length Approval
          (fun a => decide (a.buyinId = bId ∧ a.approverUserId = v)) [⟨i, uid u2, d, t⟩]
        simpa using hle
      · have h0 : List.countP (fun a : Approval => decide (a.buyinId = bId ∧ a.approverUserId = v))
            [⟨i, uid u2, d, t⟩] = 0 := by
          simp only [List.countP_singleton]
          rw [if_neg]
          simp only [decide_eq_true_eq]
          intro hcon
          exact hpair ⟨hcon.1.symm, hcon.2.symm⟩
        rw [h0]
        simp only [Nat.add_zero]
        exact hinv bId v

theorem run_votes_le_one (ops : List Op) (s : Store) (hinv : ∀ bId v, votesFor s bId v ≤ 1) :
    ∀ bId v, votesFor (run s ops) bId v ≤ 1 := by
  induction ops generalizing s with
  | nil => exact hinv
  | cons o os ih => exact ih _ (step_votes_le_one s o hinv)

theorem joinLines_head_append (a : String) (l : List String) : ∃ r, joinLines (a :: l) = a ++ r := by
  cases l with
  | nil => exact ⟨"", by simp [joinLines]⟩
  | cons b bs => exact ⟨"\n" ++ joinLines (b :: bs), by simp [joinLines, String.append_assoc]⟩

theorem dedupByUser_nodup (l : List Player) (seen : List String) :
    ((dedupByUser seen l).map Player.userId).Nodup ∧
    ∀ u ∈ (dedupByUser seen l).map Player.userId, u ∉ seen := by
  induction l generalizing seen with
  | nil => exact ⟨List.nodup_nil, by simp [dedupByUser]⟩
  | cons p ps ih =>
    by_cases hmem : p.userId ∈ seen
    · simpa [dedupByUser, hmem] using ih seen
    · obtain ⟨hnd, hseen⟩ := ih (p.userId :: seen)
      simp only [dedupByUser, if_neg hmem, List.map_cons]
      constructor
      · rw [List.nodup_cons]
        refine ⟨fun hin => ?_, hnd⟩
        exact (hseen _ hin) (List.mem_cons_self _ _)
      · intro u hu
        rcases List.mem_cons.mp hu with hu | hu
        · rw [hu]; exact hmem
        · intro hu2
          exact (hseen _ hu) (List.mem_cons_of_mem _ hu2)

/-- fixture for C1: a store whose only buy-in request is already rejected. -/
def cexStoreC1 : Store :=
  { games := [], players := [],
    buyins := [⟨1, 1, "100", 5000, 0, BStatus.rejected⟩],
    approvals := [], nextGameId := 2, nextBuyinId := 2 }

/-- C1 counterexample: the claim says the status transition of vote is a
conditional update that leaves an already approved or rejected request
unchanged.  The code's transition step is `UPDATE buyins SET status=?
WHERE id=?` with no status guard: on a store whose request 1 is already
rejected, executing the approve transition overwrites it to approved. -/
theorem claim_C1_cex :
    buyinStatus cexStoreC1 1 = some BStatus.rejected ∧
    buyinStatus (setBuyinStatus cexStoreC1 1 BStatus.approved) 1 = some BStatus.approved := by
  decide

/-- C1 (amended): the transition step of processApproval is an
unconditional update keyed only by the request id — whatever status the
identified request currently has, executing the step sets it to the new
status; the only pending check is the earlier read in processApproval,
which is not part of the update statement. -/
theorem claim_C1_amended (s : Store) (i : Nat) (st : BStatus) (b : Buyin)
    (hb : s.buyins.find? (fun x => decide (x.id = i)) = some b) :
    buyinStatus (setBuyinStatus s i st) i = some st := by
  unfold buyinStatus setBuyinStatus
  rw [find?_map_point]
  · rw [hb]
    have hid : b.id = i := by simpa using List.find?_some hb
    simp [hid]
  · intro x
    by_cases hx : x.id = i <;> simp [hx]

/-- C1 witness: the amended theorem applied to the fixture store. -/
theorem claim_C1_witness :
    cexStoreC1.buyins.find? (fun x => decide (x.id = 1))
      = some ⟨1, 1, "100", 5000, 0, BStatus.rejected⟩ ∧
    buyinStatus (setBuyinStatus cexStoreC1 1 BStatus.approved) 1 = some BStatus.approved :=
  ⟨by decide,
   claim_C1_amended cexStoreC1 1 BStatus.approved ⟨1, 1, "100", 5000, 0, BStatus.rejected⟩
     (by decide)⟩

/-- C10: when a participant has neither handle nor given name, the
fallback label is the raw identity unmasked for identities of at most 4
characters, and first-two ++ "***" ++ last-two only for longer ones. -/
theorem claim_C10 (fb : String) :
    (fb.length ≤ 4 → displayName "" "" fb = fb) ∧
    (4 < fb.length → displayName "" "" fb
      = String.mk (fb.toList.take 2) ++ "***" ++ String.mk (fb.toList.drop (fb.length - 2))) := by
  unfold displayName maskUser
  constructor
  · intro h
    simp [h]
  · intro h
    have h4 : ¬ fb.length ≤ 4 := by omega
    simp [h4]

/-- C10 witness: a short identity is rendered raw, a longer one masked. -/
theorem claim_C10_witness :
    ("1234".length ≤ 4 ∧ displayName "" "" "1234" = "1234") ∧
    (4 < "123456".length ∧ displayName "" "" "123456"
      = String.mk ("123456".toList.take 2) ++ "***" ++
        String.mk ("123456".toList.drop ("123456".length - 2))) :=
  ⟨⟨by decide, (claim_C10 "1234").1 (by decide)⟩,
   ⟨by decide, (claim_C10 "123456").2 (by decide)⟩⟩

/-- C6 counterexample: the amount text "50.125" is accepted by startGame
(it parses to the positive number 401/8); the code's conversion yields
5013 minor-units because JavaScript Math.round rounds halves up, while
round-half-to-even of the scaled value 5012.5 yields 5012. -/
theorem claim_C6_cex :
    scanAmount "50.125".toList = some (401 / 8 : ℚ) ∧
    toCents (401 / 8 : ℚ) = 5013 ∧
    roundHalfToEven ((401 / 8 : ℚ) * 100) = 5012 := by
  refine ⟨?_, ?_, ?_⟩
  · have h1 : "50.125".toList = ['5', '0', '.', '1', '2', '5'] := by decide
    have h2 : digitRun ['5', '0', '.', '1', '2', '5'] = (['5', '0'], ['.', '1', '2', '5']) := by
      decide
    have h3 : digitRun ['1', '2', '5'] = (['1', '2', '5'], []) := by decide
    have h4 : '5'.isDigit = true := by decide
    have t5 : '5'.toNat = 53 := by decide
    have t0 : '0'.toNat = 48 := by decide
    have t1 : '1'.toNat = 49 := by decide
    have t2 : '2'.toNat = 50 := by decide
    rw [h1, scanAmount]
    simp only [h2, h3, h4, if_true]
    norm_num [digitsToNat, t5, t0, t1, t2]
  · norm_num [toCents, Int.floor_eq_iff]
  · have hfl : ⌊(401 / 8 : ℚ) * 100⌋ = 5012 := by norm_num [Int.floor_eq_iff]
    have hfr : Int.fract ((401 / 8 : ℚ) * 100) = 1 / 2 := by
      rw [Int.fract, hfl]
      norm_num
    rw [roundHalfToEven, hfr, hfl]
    norm_num

/-- C6 (amended): the conversion used by startGame is round-half-up, not
round-half-to-even: for every accepted (positive) parsed amount q the
stored minor-unit value toCents q is the unique integer k with
k ≤ 100·q + 1/2 < k + 1, so an exact half rounds toward positive
infinity; an input parsing to 50 still yields 5000 minor-units. -/
theorem claim_C6_amended (q : ℚ) (h : 0 < q) :
    (toCents q : ℚ) ≤ q * 100 + 1 / 2 ∧ q * 100 + 1 / 2 < (toCents q : ℚ) + 1 ∧
    scanAmount "50".toList = some (50 : ℚ) ∧ toCents 50 = 5000 := by
  refine ⟨?_, ?_, by decide, by norm_num [toCents]⟩
  · unfold toCents
    exact Int.floor_le _
  · unfold toCents
    exact Int.lt_floor_add_one _

/-- C6 witness: the amended theorem applied at q = 50. -/
theorem claim_C6_witness :
    (0 : ℚ) < 50 ∧
    ((toCents 50 : ℚ) ≤ 50 * 100 + 1 / 2 ∧ 50 * 100 + 1 / 2 < (toCents 50 : ℚ) + 1 ∧
      scanAmount "50".toList = some (50 : ℚ) ∧ toCents 50 = 5000) :=
  ⟨by decide, claim_C6_amended 50 (by decide)⟩

/-- fixture for C7: two players with equal approved totals, one with only
a given name ("Alice", empty stored username), one with handle "bob". -/
def cexStoreC7 : Store :=
  { games := [⟨1, 1, GStatus.active, 10, none, 5000, none⟩],
    players := [⟨1, "100", none, some "Alice", 11⟩, ⟨1, "200", some "bob", none, 12⟩],
    buyins := [], approvals := [], nextGameId := 2, nextBuyinId := 1 }

/-- C7 counterexample: the players query orders by the stored username
(the empty string sorts before "bob", so the row labelled "Alice" comes
first), while ordering by display label ascending would put "@bob" before
"Alice"; the projected list is therefore not sorted by the spec's
label-based relation. -/
theorem claim_C7_cex :
    (composeGameState cexStoreC7 1).players.map PlayerRowV.userId = ["100", "200"] ∧
    ¬ List.Sorted specPlayerLE (composeGameState cexStoreC7 1).players ∧
    (specSortPlayers ((composeGameState cexStoreC7 1).players)).map PlayerRowV.userId
      = ["200", "100"] := by
  decide

/-- C7 (amended): the projected view has one player row per distinct
roster identity (user ids are pairwise distinct), ordered by approved
total descending and then by stored username ascending — the username
key, not the rendered display label — and one pending row per pending
request ordered by request id ascending. -/
theorem claim_C7_amended (s : Store) (gid : Nat) :
    List.Sorted playerLE (composeGameState s gid).players ∧
    List.Sorted pendingLE (composeGameState s gid).pending ∧
    ((composeGameState s gid).players.map PlayerRowV.userId).Nodup := by
  refine ⟨List.sorted_insertionSort playerLE _, List.sorted_insertionSort pendingLE _, ?_⟩
  have hperm : ((composeGameState s gid).players.map PlayerRowV.userId).Perm
      (((dedupByUser [] (s.players.filter (fun p => decide (p.gameId = gid)))).map
        (playerRowOf s)).map PlayerRowV.userId) :=
    (List.perm_insertionSort playerLE _).map PlayerRowV.userId
  rw [hperm.nodup_iff]
  rw [List.map_map]
  exact (dedupByUser_nodup _ []).1

/-- C5: the four vote guards — unknown (nonzero) request id, already
resolved, self-vote, non-member — each fail with their own error and
leave the store untouched, so no vote row is recorded on any failing
attempt and a requester's own vote is never recorded. -/
theorem claim_C5 (tg : Telegram) (s : Store) (c : Int) (i : Nat) (u : TgUser) (d : Decision)
    (t : Nat) (hi : i ≠ 0) :
    (s.buyins.find? (fun b => decide (b.id = i)) = none →
      processApproval tg s c i u d t = (⟨false, some "Buy-in not found."⟩, s)) ∧
    (∀ b, s.buyins.find? (fun b' => decide (b'.id = i)) = some b →
      b.status ≠ BStatus.pending →
      processApproval tg s c i u d t = (⟨false, some "Buy-in already resolved."⟩, s)) ∧
    (∀ b, s.buyins.find? (fun b' => decide (b'.id = i)) = some b →
      b.status = BStatus.pending → b.userId = uid u →
      processApproval tg s c i u d t = (⟨false, some "You cannot vote on your own buy-in."⟩, s)) ∧
    (∀ b, s.buyins.find? (fun b' => decide (b'.id = i)) = some b →
      b.status = BStatus.pending → b.userId ≠ uid u →
      s.players.find? (fun p => decide (p.gameId = b.gameId ∧ p.userId = uid u)) = none →
      processApproval tg s c i u d t
        = (⟨false, some "Only players can approve or reject buy-ins."⟩, s)) := by
  refine ⟨?_, ?_, ?_, ?_⟩
  · intro hnone
    simp [processApproval, if_neg hi, hnone]
  · intro b hb hstat
    simp only [processApproval, if_neg hi, hb]
    rw [if_pos hstat]
  · intro b hb hstat hself
    simp only [processApproval, if_neg hi, hb]
    rw [if_neg (not_not_intro hstat), if_pos hself]
  · intro b hb hstat hself hmem
    simp only [processApproval, if_neg hi, hb]
    rw [if_neg (not_not_intro hstat), if_neg hself]
    simp [hmem]
    intro x hx hg
    have hnp := List.find?_eq_none.mp hmem x hx
    simp only [decide_eq_true_eq, not_and] at hnp
    exact hnp hg

/-- fixture for C5: an active game with members "100" and "200", a pending
request 1 by "100" and an approved request 2 by "100". -/
def cexStoreC5 : Store :=
  { games := [⟨1, 1, GStatus.active, 10, none, 5000, none⟩],
    players := [⟨1, "100", none, some "Alice", 11⟩, ⟨1, "200", some "bob", none, 12⟩],
    buyins := [⟨1, 1, "100", 5000, 13, BStatus.pending⟩, ⟨2, 1, "100", 5000, 14, BStatus.approved⟩],
    approvals := [], nextGameId := 2, nextBuyinId := 3 }

/-- C5 witness: each guard exercised on the fixture store. -/
theorem claim_C5_witness :
    (cexStoreC5.buyins.find? (fun b => decide (b.id = 3)) = none ∧
      processApproval ⟨true, some 5⟩ cexStoreC5 1 3 ⟨200, some "bob", none⟩ Decision.approve 99
        = (⟨false, some "Buy-in not found."⟩, cexStoreC5)) ∧
    (processApproval ⟨true, some 5⟩ cexStoreC5 1 2 ⟨200, some "bob", none⟩ Decision.approve 99
        = (⟨false, some "Buy-in already resolved."⟩, cexStoreC5)) ∧
    (processApproval ⟨true, some 5⟩ cexStoreC5 1 1 ⟨100, none, some "Alice"⟩ Decision.approve 99
        = (⟨false, some "You cannot vote on your own buy-in."⟩, cexStoreC5)) ∧
    (processApproval ⟨true, some 5⟩ cexStoreC5 1 1 ⟨300, none, none⟩ Decision.approve 99
        = (⟨false, some "Only players can approve or reject buy-ins."⟩, cexStoreC5)) :=
  ⟨⟨by decide,
    (claim_C5 ⟨true, some 5⟩ cexStoreC5 1 3 ⟨200, some "bob", none⟩ Decision.approve 99
      (by decide)).1 (by decide)⟩,
   (claim_C5 ⟨true, some 5⟩ cexStoreC5 1 2 ⟨200, some "bob", none⟩ Decision.approve 99
      (by decide)).2.1 ⟨2, 1, "100", 5000, 14, BStatus.approved⟩ (by decide) (by decide),
   (claim_C5 ⟨true, some 5⟩ cexStoreC5 1 1 ⟨100, none, some "Alice"⟩ Decision.approve 99
      (by decide)).2.2.1 ⟨1, 1, "100", 5000, 13, BStatus.pending⟩ (by decide) (by decide) (by decide),
   (claim_C5 ⟨true, some 5⟩ cexStoreC5 1 1 ⟨300, none, none⟩ Decision.approve 99
      (by decide)).2.2.2 ⟨1, 1, "100", 5000, 13, BStatus.pending⟩ (by decide) (by decide)
      (by decide) (by decide)⟩

/-- C2: once a request is approved or rejected it stays that way under
every sequence of operations, and a vote on a non-pending (nonzero)
request id returns the already-resolved error and leaves the whole store
unchanged. -/
theorem claim_C2 (s : Store) (i : Nat) (st : BStatus)
    (hst : buyinStatus s i = some st) (hres : st ≠ BStatus.pending) :
    (∀ ops : List Op, buyinStatus (run s ops) i = some st) ∧
    (∀ tg c u d t, i ≠ 0 →
      processApproval tg s c i u d t = (⟨false, some "Buy-in already resolved."⟩, s)) := by
  constructor
  · intro ops
    exact run_resolved_preserved ops s i st hst hres
  · intro tg c u d t hi
    obtain ⟨b, hb, hbst⟩ :
        ∃ b, s.buyins.find? (fun b' => decide (b'.id = i)) = some b ∧ b.status = st := by
      unfold buyinStatus at hst
      cases hf : s.buyins.find? (fun b' => decide (b'.id = i)) with
      | none => rw [hf] at hst; simp at hst
      | some b =>
        rw [hf] at hst
        exact ⟨b, rfl, by simpa using hst⟩
    simp only [processApproval, if_neg hi, hb]
    rw [if_pos (show b.status ≠ BStatus.pending by rw [hbst]; exact hres)]

/-- fixture for C2: the only request is already approved. -/
def cexStoreC2 : Store :=
  { games := [⟨1, 1, GStatus.active, 10, none, 5000, none⟩],
    players := [⟨1, "100", none, some "Alice", 11⟩, ⟨1, "200", some "bob", none, 12⟩],
    buyins := [⟨1, 1, "100", 5000, 13, BStatus.approved⟩],
    approvals := [⟨1, "200", Decision.approve, 14⟩], nextGameId := 2, nextBuyinId := 2 }

/-- C2 witness: the theorem applied to the fixture, with a concrete
operation sequence and a concrete repeated vote. -/
theorem claim_C2_witness :
    buyinStatus cexStoreC2 1 = some BStatus.approved ∧
    BStatus.approved ≠ BStatus.pending ∧
    buyinStatus
      (run cexStoreC2
        [Op.vote ⟨true, some 7⟩ 1 1 ⟨200, some "bob", none⟩ Decision.reject 20,
         Op.endg ⟨true, some 7⟩ 1 21]) 1 = some BStatus.approved ∧
    processApproval ⟨true, some 7⟩ cexStoreC2 1 1 ⟨200, some "bob", none⟩ Decision.reject 20
      = (⟨false, some "Buy-in already resolved."⟩, cexStoreC2) :=
  ⟨by decide, by decide,
   (claim_C2 cexStoreC2 1 BStatus.approved (by decide) (by decide)).1
     [Op.vote ⟨true, some 7⟩ 1 1 ⟨200, some "bob", none⟩ Decision.reject 20,
      Op.endg ⟨true, some 7⟩ 1 21],
   (claim_C2 cexStoreC2 1 BStatus.approved (by decide) (by decide)).2
     ⟨true, some 7⟩ 1 ⟨200, some "bob", none⟩ Decision.reject 20 (by decide)⟩

/-- C3: startGame fails with the conflict error and changes nothing when
an active game exists for the chat; when none exists and it succeeds, the
chat has exactly one active game afterwards; and every operation preserves
at-most-one-active-game-per-chat. -/
theorem claim_C3 (s : Store) :
    (∀ (tg : Telegram) (c : Int) txt t,
      (s.games.find? (fun g => decide (g.chatId = c ∧ g.status = GStatus.active))).isSome →
      startGame tg s c txt t
        = (⟨false, some "There is already an active game in this chat."⟩, s)) ∧
    (∀ (tg : Telegram) (c : Int) txt t,
      s.games.find? (fun g => decide (g.chatId = c ∧ g.status = GStatus.active)) = none →
      (startGame tg s c txt t).1.ok = true →
      activeCount ((startGame tg s c txt t).2) c = 1) ∧
    ((∀ ch, activeCount s ch ≤ 1) → ∀ (o : Op) ch, activeCount (step s o).2 ch ≤ 1) := by
  refine ⟨?_, ?_, fun hinv o ch => step_active_le_one s o hinv ch⟩
  · intro tg c txt t hsome
    obtain ⟨g, hg⟩ := Option.isSome_iff_exists.mp hsome
    simp only [startGame]
    rw [hg]
  · intro tg c txt t hnone hok
    simp only [startGame, hnone] at hok ⊢
    split at hok
    · simp at hok
    · rename_i numeric hp
      by_cases hpos : numeric ≤ 0
      · rw [if_pos hpos] at hok
        simp at hok
      · rw [if_neg hpos]
        split
        · rw [refresh_activeCount]
          simp only [activeCount, List.countP_append]
          have h0 : s.games.countP (activeP c) = 0 :=
            List.countP_eq_zero.mpr (fun g hg => List.find?_eq_none.mp hnone g hg)
          rw [h0]
          simp [activeP, List.countP_singleton]
        · simp only [activeCount, List.countP_append]
          have h0 : s.games.countP (activeP c) = 0 :=
            List.countP_eq_zero.mpr (fun g hg => List.find?_eq_none.mp hnone g hg)
          rw [h0]
          simp [activeP, List.countP_singleton]

/-- fixture for C3: chat 1 already has an active game, chat 2 has none. -/
def cexStoreC3 : Store :=
  { games := [⟨1, 1, GStatus.active, 10, none, 5000, none⟩],
    players := [], buyins := [], approvals := [], nextGameId := 2, nextBuyinId := 1 }

/-- C3 witness: conflict on chat 1, successful creation on chat 2, and
invariant preservation at a concrete operation. -/
theorem claim_C3_witness :
    ((cexStoreC3.games.find?
        (fun g => decide (g.chatId = 1 ∧ g.status = GStatus.active))).isSome ∧
      startGame ⟨true, some 5⟩ cexStoreC3 1 "20" 30
        = (⟨false, some "There is already an active game in this chat."⟩, cexStoreC3)) ∧
    (cexStoreC3.games.find?
        (fun g => decide (g.chatId = 2 ∧ g.status = GStatus.active)) = none ∧
      (startGame ⟨true, some 5⟩ cexStoreC3 2 "50" 30).1.ok = true ∧
      activeCount ((startGame ⟨true, some 5⟩ cexStoreC3 2 "50" 30).2) 2 = 1) ∧
    ((∀ ch, activeCount cexStoreC3 ch ≤ 1) ∧
      activeCount (step cexStoreC3 (Op.endg ⟨true, some 5⟩ 1 31)).2 1 ≤ 1) := by
  have hinv : ∀ ch, activeCount cexStoreC3 ch ≤ 1 :=
    fun ch => (List.countP_le_length _).trans (by decide)
  exact ⟨⟨by decide,
    (claim_C3 cexStoreC3).1 ⟨true, some 5⟩ 1 "20" 30 (by decide)⟩,
   ⟨by decide, by decide,
    (claim_C3 cexStoreC3).2.1 ⟨true, some 5⟩ 2 "50" 30 (by decide) (by decide)⟩,
   ⟨hinv,
    (claim_C3 cexStoreC3).2.2 hinv (Op.endg ⟨true, some 5⟩ 1 31) 1⟩⟩

/-- C4: at most one vote row per (request, voter) pair is preserved by
every sequence of operations, and a vote attempt by a voter who already
has a row for that request leaves the approvals table — hence both
tallies — unchanged. -/
theorem claim_C4 (s : Store) :
    ((∀ bId v, votesFor s bId v ≤ 1) →
      ∀ (ops : List Op) bId v, votesFor (run s ops) bId v ≤ 1) ∧
    (∀ (tg : Telegram) (c : Int) (i : Nat) (u : TgUser) (d : Decision) (t : Nat),
      (s.approvals.find? (fun a =>
        decide (a.buyinId = i ∧ a.approverUserId = uid u))).isSome →
      ((processApproval tg s c i u d t).2).approvals = s.approvals) :=
  ⟨fun hinv ops => run_votes_le_one ops s hinv,
   fun tg c i u d t h => processApproval_dup_tally tg s c i u d t h⟩

/-- fixture for C4: voter "200" already has a vote row for request 1,
which is still pending. -/
def cexStoreC4 : Store :=
  { games := [⟨1, 1, GStatus.active, 10, none, 5000, none⟩],
    players := [⟨1, "100", none, some "Alice", 11⟩, ⟨1, "200", some "bob", none, 12⟩],
    buyins := [⟨1, 1, "100", 5000, 13, BStatus.pending⟩],
    approvals := [⟨1, "200", Decision.approve, 14⟩], nextGameId := 2, nextBuyinId := 2 }

/-- C4 witness: the pair-uniqueness invariant pushed through a concrete
operation sequence, and a concrete conflicting duplicate vote leaving the
approvals table unchanged. -/
theorem claim_C4_witness :
    (∀ bId v, votesFor cexStoreC4 bId v ≤ 1) ∧
    votesFor
      (run cexStoreC4 [Op.vote ⟨true, some 7⟩ 1 1 ⟨200, some "bob", none⟩ Decision.reject 20])
      1 "200" ≤ 1 ∧
    (cexStoreC4.approvals.find? (fun a =>
      decide (a.buyinId = 1 ∧ a.approverUserId = uid ⟨200, some "bob", none⟩))).isSome ∧
    ((processApproval ⟨true, some 7⟩ cexStoreC4 1 1 ⟨200, some "bob", none⟩ Decision.reject 20).2).approvals
      = cexStoreC4.approvals := by
  have hinv : ∀ bId v, votesFor cexStoreC4 bId v ≤ 1 :=
    fun bId v => (List.countP_le_length _).trans (by decide)
  exact ⟨hinv,
   (claim_C4 cexStoreC4).1 hinv
     [Op.vote ⟨true, some 7⟩ 1 1 ⟨200, some "bob", none⟩ Decision.reject 20] 1 "200",
   by decide,
   (claim_C4 cexStoreC4).2 ⟨true, some 7⟩ 1 1 ⟨200, some "bob", none⟩ Decision.reject 20
     (by decide)⟩

/-- C8: every operation's reported result is independent of the Telegram
oracle (so a failed publish never fails the triggering operation); inside
refreshGameMessage, when the in-place edit of a recorded status message
fails and creation is allowed, a new message is sent and its id recorded
on the game row; when creation is disallowed, the refresh fails without
touching the store. -/
theorem claim_C8 :
    (∀ (tg tg' : Telegram) (s : Store) (c : Int) (u : TgUser) (a : Option String) (txt : String)
        (i : Nat) (d : Decision) (t : Nat),
      (startGame tg s c txt t).1 = (startGame tg' s c txt t).1 ∧
      (joinGame tg s c u t).1 = (joinGame tg' s c u t).1 ∧
      (buyIn tg s c u a t).1 = (buyIn tg' s c u a t).1 ∧
      (processApproval tg s c i u d t).1 = (processApproval tg' s c i u d t).1 ∧
      (endGame tg s c t).1 = (endGame tg' s c t).1) ∧
    (∀ (tg : Telegram) (s : Store) (c : Int) (game : Game) (mid nid : Nat),
      game.statusMessageId = some mid → tg.editOk = false → tg.sendResult = some nid →
      s.games.find? (fun g => decide (g.id = game.id)) = some game →
      (refreshGameMessage tg s c (some game) true).1 = true ∧
      getGameById (refreshGameMessage tg s c (some game) true).2 game.id
        = some { game with statusMessageId := some nid }) ∧
    (∀ (tg : Telegram) (s : Store) (c : Int) (game : Game),
      game.statusMessageId = none ∨ tg.editOk = false →
      refreshGameMessage tg s c (some game) false = (false, s)) := by
  refine ⟨?_, ?_, ?_⟩
  · intro tg tg' s c u a txt i d t
    refine ⟨?_, ?_, ?_, ?_, ?_⟩
    · simp only [startGame]
      repeat' split
      all_goals rfl
    · simp only [joinGame]
      repeat' split
      all_goals rfl
    · simp only [buyIn]
      repeat' split
      all_goals rfl
    · simp only [processApproval]
      repeat' split
      all_goals rfl
    · simp only [endGame]
      repeat' split
      all_goals rfl
  · intro tg s c game mid nid hmsg hedit hsend hfind
    have hre : refreshGameMessage tg s c (some game) true
        = (true, { s with games := s.games.map (fun g =>
            if g.id = game.id then { g with statusMessageId := some nid } else g) }) := by
      simp only [refreshGameMessage, sendNew, hmsg, hedit, hsend]
      simp
      split <;> rfl
    refine ⟨by rw [hre], ?_⟩
    rw [hre]
    unfold getGameById
    rw [find?_map_point]
    · rw [hfind]
      simp
    · intro x
      by_cases hx : x.id = game.id <;> simp [hx]
  · intro tg s c game hdis
    rcases hdis with hnone | hedit
    · simp [refreshGameMessage, hnone]
    · cases hm : game.statusMessageId with
      | none => simp [refreshGameMessage, hm]
      | some m => simp [refreshGameMessage, hm, hedit]

/-- fixture for C8: one active game whose recorded status message id is 7. -/
def cexStoreC8 : Store :=
  { games := [⟨1, 1, GStatus.active, 10, none, 5000, some 7⟩],
    players := [], buyins := [], approvals := [], nextGameId := 2, nextBuyinId := 1 }

/-- the game row of the C8 fixture. -/
def gameC8 : Game := ⟨1, 1, GStatus.active, 10, none, 5000, some 7⟩

/-- C8 witness: a join reported identically under a succeeding and a
failing oracle, a failed edit falling back to a new message id 42, and a
disallowed creation failing cleanly. -/
theorem claim_C8_witness :
    ((joinGame ⟨true, some 5⟩ cexStoreC8 1 ⟨100, none, some "Alice"⟩ 30).1
      = (joinGame ⟨false, none⟩ cexStoreC8 1 ⟨100, none, some "Alice"⟩ 30).1) ∧
    (gameC8.statusMessageId = some 7 ∧
      (⟨false, some 42⟩ : Telegram).editOk = false ∧
      (⟨false, some 42⟩ : Telegram).sendResult = some 42 ∧
      cexStoreC8.games.find? (fun g => decide (g.id = gameC8.id)) = some gameC8 ∧
      (refreshGameMessage ⟨false, some 42⟩ cexStoreC8 1 (some gameC8) true).1 = true ∧
      getGameById (refreshGameMessage ⟨false, some 42⟩ cexStoreC8 1 (some gameC8) true).2 gameC8.id
        = some { gameC8 with statusMessageId := some 42 }) ∧
    refreshGameMessage ⟨false, some 42⟩ cexStoreC8 1 (some gameC8) false = (false, cexStoreC8) := by
  refine ⟨?_, ⟨by decide, by decide, by decide, by decide, ?_, ?_⟩, ?_⟩
  · exact ((claim_C8.1 ⟨true, some 5⟩ ⟨false, none⟩ cexStoreC8 1 ⟨100, none, some "Alice"⟩
      none "" 1 Decision.approve 30).2.1)
  · exact (claim_C8.2.1 ⟨false, some 42⟩ cexStoreC8 1 gameC8 7 42 (by decide) (by decide)
      (by decide) (by decide)).1
  · exact (claim_C8.2.1 ⟨false, some 42⟩ cexStoreC8 1 gameC8 7 42 (by decide) (by decide)
      (by decide) (by decide)).2
  · exact claim_C8.2.2 ⟨false, some 42⟩ cexStoreC8 1 gameC8 (Or.inr (by decide))

/-- C9: after a successful endGame on a chat (under id-uniqueness of game
rows and at-most-one-active-per-chat), the ended row's status is ended,
its render starts with the ended header and has no keyboard, no active
game remains for the chat, and subsequent join and buy-in attempts fail
with the no-active-game error. -/
theorem claim_C9 (tg tg2 tg3 : Telegram) (s : Store) (c : Int) (t t2 t3 : Nat) (u : TgUser)
    (a : Option String) (g : Game)
    (hids : ∀ g1 ∈ s.games, ∀ g2 ∈ s.games, g1.id = g2.id → g1 = g2)
    (hinv : ∀ ch, activeCount s ch ≤ 1)
    (hcur : currentGame s c = some g) :
    (endGame tg s c t).1 = ⟨true, some "Game ended."⟩ ∧
    (∃ g', getGameById (endGame tg s c t).2 g.id = some g' ∧ g'.status = GStatus.ended ∧
      (∀ pend, buildStatusKeyboard g' pend = none) ∧
      (∀ stv, ∃ r, buildStatusText g' stv = "*Game ended*" ++ r)) ∧
    currentGame (endGame tg s c t).2 c = none ∧
    (joinGame tg2 (endGame tg s c t).2 c u t2).1
      = ⟨false, some "No active game. Use /startgame first."⟩ ∧
    (buyIn tg3 (endGame tg s c t).2 c u a t3).1
      = ⟨false, some "No active game. Use /startgame first."⟩ := by
  have hcur' : maxById (s.games.filter (activeP c)) = some g := hcur
  have hgmem : g ∈ s.games := (List.mem_filter.mp (maxById_mem hcur')).1
  have hfil : s.games.filter (activeP c) = [g] :=
    mem_length_le_one (maxById_mem hcur')
      (by rw [← List.countP_eq_length_filter]; exact hinv c)
  have hfind1 : s.games.find? (fun x => decide (x.id = g.id)) = some g := by
    have hsome : (s.games.find? (fun x => decide (x.id = g.id))).isSome :=
      List.find?_isSome.mpr ⟨g, hgmem, by simp⟩
    obtain ⟨g0, hg0⟩ := Option.isSome_iff_exists.mp hsome
    have hg0mem := List.mem_of_find?_eq_some hg0
    have hg0id : g0.id = g.id := by simpa using List.find?_some hg0
    rw [hg0, hids g0 hg0mem g hgmem hg0id]
  have hgb1 : getGameById
      { s with games := s.games.map (fun g' =>
          if g'.id = g.id then { g' with status := GStatus.ended, endedAt := some t } else g') }
      g.id = some { g with status := GStatus.ended, endedAt := some t } := by
    unfold getGameById
    rw [find?_map_point]
    · rw [hfind1]
      simp
    · intro x
      by_cases hx : x.id = g.id <;> simp [hx]
  have hend : endGame tg s c t
      = (⟨true, some "Game ended."⟩,
        (refreshGameMessage tg
          { s with games := s.games.map (fun g' =>
              if g'.id = g.id then { g' with status := GStatus.ended, endedAt := some t } else g') }
          c (some { g with status := GStatus.ended, endedAt := some t }) true).2) := by
    simp only [endGame, hcur, hgb1]
  have hdata := refresh_getGameById_data tg
    { s with games := s.games.map (fun g' =>
        if g'.id = g.id then { g' with status := GStatus.ended, endedAt := some t } else g') }
    c (some { g with status := GStatus.ended, endedAt := some t }) true g.id
  rw [hgb1] at hdata
  rw [Option.map_some'] at hdata
  obtain ⟨g', hg', hgdata⟩ := Option.map_eq_some'.mp hdata
  have hst' : g'.status = GStatus.ended := by
    have hcg := congrArg Game.status hgdata
    simpa [gameData] using hcg
  have hactive0 : activeCount ((endGame tg s c t).2) c = 0 := by
    rw [hend, refresh_activeCount]
    simp only [activeCount, List.countP_map]
    apply List.countP_eq_zero.mpr
    intro g1 hg1
    simp only [Function.comp]
    by_cases hid : g1.id = g.id
    · simp [activeP, hid]
    · simp only [if_neg hid]
      intro hact
      have hmem1 : g1 ∈ s.games.filter (activeP c) := List.mem_filter.mpr ⟨hg1, hact⟩
      rw [hfil] at hmem1
      have heq1 : g1 = g := by simpa using hmem1
      exact hid (heq1 ▸ rfl)
  have hnone2 : currentGame ((endGame tg s c t).2) c = none := currentGame_eq_none.mpr hactive0
  refine ⟨by rw [hend], ⟨g', ?_, hst', ?_, ?_⟩, hnone2, ?_, ?_⟩
  · rw [hend]
    exact hg'
  · intro pend
    simp [buildStatusKeyboard, hst']
  · intro stv
    simp only [buildStatusText, hst']
    simp only [List.cons_append, List.append_assoc]
    exact joinLines_head_append _ _
  · simp [joinGame, hnone2]
  · simp [buyIn, hnone2]

/-- fixture for C9: one active game in chat 1, nothing else. -/
def cexStoreC9 : Store :=
  { games := [⟨1, 1, GStatus.active, 10, none, 5000, none⟩],
    players := [], buyins := [], approvals := [], nextGameId := 2, nextBuyinId := 1 }

/-- the game row of the C9 fixture. -/
def gameC9 : Game := ⟨1, 1, GStatus.active, 10, none, 5000, none⟩

/-- C9 witness: the theorem applied to the fixture store. -/
theorem claim_C9_witness :
    currentGame cexStoreC9 1 = some gameC9 ∧
    ((endGame ⟨true, some 5⟩ cexStoreC9 1 40).1 = ⟨true, some "Game ended."⟩ ∧
      (∃ g', getGameById (endGame ⟨true, some 5⟩ cexStoreC9 1 40).2 gameC9.id = some g' ∧
        g'.status = GStatus.ended ∧
        (∀ pend, buildStatusKeyboard g' pend = none) ∧
        (∀ stv, ∃ r, buildStatusText g' stv = "*Game ended*" ++ r)) ∧
      currentGame (endGame ⟨true, some 5⟩ cexStoreC9 1 40).2 1 = none ∧
      (joinGame ⟨true, some 5⟩ (endGame ⟨true, some 5⟩ cexStoreC9 1 40).2 1 ⟨100, none, none⟩ 41).1
        = ⟨false, some "No active game. Use /startgame first."⟩ ∧
      (buyIn ⟨true, some 5⟩ (endGame ⟨true, some 5⟩ cexStoreC9 1 40).2 1 ⟨100, none, none⟩ none 42).1
        = ⟨false, some "No active game. Use /startgame first."⟩) :=
  ⟨by decide,
   claim_C9 ⟨true, some 5⟩ ⟨true, some 5⟩ ⟨true, some 5⟩ cexStoreC9 1 40 41 42 ⟨100, none, none⟩
     none gameC9 (by decide) (fun ch => (List.countP_le_length _).trans (by decide)) (by decide)⟩

end PokerBuddy
